import Mathlib

/-!
Shallow embedding of the ingest / page-flip core of
`Volumetric_Interactive_Display_2025` (files
`src/python/update/pointvision_update.py` and `src/python/pointvision_update.py`).

The embedding models:
* the voxel grid constants and the flat addressing of the shared double
  buffer (`voxels_x`, `voxels_y`, `voxels_z`, `flatIndex`);
* one iteration of the Rasterizer loop `process_data`
  (`update/pointvision_update.py`, lines 69-117): read the page byte, clear
  the idle page, parse 4-byte records, bounds-filter, scatter-write,
  flip the page byte (`processFrame`);
* the drop-latest frame queue `frame_queue = deque(maxlen=1)`
  (`queueAppend`, `queuePopleft`);
* the connection handler `handle_client` (lines 144-191): 8-byte header with
  signature `FF FF FF FF`, big-endian 32-bit length, 10 MB cap, payload read,
  gzip decompression modelled as an oracle `dec` (`handleClient`);
* the startup control flow of `process_data` and `__main__`
  (lines 130-136 and 218-236).
-/

/-- Grid width, `voxels_x = 128` in the source. -/
def voxels_x : Nat := 128

/-- Grid depth, `voxels_y = 128` in the source. -/
def voxels_y : Nat := 128

/-- Grid height, `voxels_z = 64` in the source. -/
def voxels_z : Nat := 64

/-- Number of voxels per page, `voxels_count = voxels_x * voxels_y * voxels_z`. -/
def voxels_count : Nat := voxels_x * voxels_y * voxels_z

/-- The shared double-buffer state visible to the Rasterizer: the flat byte
array `buffers` (two pages of `voxels_count` bytes each, page 0 then page 1)
and the `page` control byte.  A page view `voxels[y][x][z]` of page `p` is the
flat byte `buffers[p * voxels_count + (y * voxels_x + x) * voxels_z + z]`,
matching the `(voxels_y, voxels_x, voxels_z)`-shaped numpy reshape of
`buffer.buffers[p]`. -/
structure VoxelState where
  buffers : Nat → Nat
  page : Nat

/-- Flat index of voxel `(x, y, z)` in page `p`: numpy view
`voxels[y, x, z]` of the `(Y, X, Z)`-reshaped page, so `z` varies fastest,
then `x`, then `y`. -/
def flatIndex (p y x z : Nat) : Nat :=
  p * voxels_count + (y * voxels_x + x) * voxels_z + z

/-- One 4-byte wire record `(x, y, z, c)` of the decompressed payload. -/
structure PointRec where
  x : Nat
  y : Nat
  z : Nat
  c : Nat
deriving DecidableEq, Repr

/-- Split a payload byte list into consecutive 4-byte records, the columns
`point_data[:, 0] .. point_data[:, 3]` of the numpy reshape `(-1, 4)`.
Only used on payloads whose length is a multiple of 4 (otherwise the numpy
reshape raises and the frame is aborted). -/
def pointRecords : List Nat → List PointRec
  | x :: y :: z :: c :: rest => ⟨x, y, z, c⟩ :: pointRecords rest
  | _ => []

/-- The vectorized bounds check
`(x < voxels_x) & (y < voxels_y) & (z < voxels_z)`. -/
def validPoint (r : PointRec) : Bool :=
  decide (r.x < voxels_x) && decide (r.y < voxels_y) && decide (r.z < voxels_z)

/-- The records surviving the bounds filter (`x[valid_mask]` etc.). -/
def validRecords (data : List Nat) : List PointRec :=
  (pointRecords data).filter validPoint

/-- The count `num_invalid = np.sum(~valid_mask)` of dropped records. -/
def invalidCount (data : List Nat) : Nat :=
  ((pointRecords data).filter (fun r => !validPoint r)).length

/-- Point update of the flat byte array: write byte `v` at index `i`. -/
def updateByte (b : Nat → Nat) (i v : Nat) : Nat → Nat :=
  fun j => if j = i then v else b j

/-- Model of `voxels.fill(0)` on page `p`: zero the `voxels_count` bytes of
page `p`, leave every other byte alone. -/
def clearPage (b : Nat → Nat) (p : Nat) : Nat → Nat :=
  fun j => if p * voxels_count ≤ j ∧ j < (p + 1) * voxels_count then 0 else b j

/-- The scatter write `voxels[y, x, z] = pix` into page `wp`, applied record by
record in payload order, so a duplicate coordinate resolves last-writer-wins. -/
def writeRecords (wp : Nat) (recs : List PointRec) (b : Nat → Nat) : Nat → Nat :=
  recs.foldl (fun acc r => updateByte acc (flatIndex wp r.y r.x r.z) r.c) b

/-- One iteration of the Rasterizer loop `process_data` on a dequeued payload
(`update/pointvision_update.py` lines 69-117), faithful for `page ∈ {0,1}`:
1. `current_page = buffer.page`, `write_page = 1 - current_page`;
2. `voxels.fill(0)` clears the write page (before any length check);
3. `num_points = len(data) // 4`; if `num_points == 0` the loop `continue`s —
   the page byte is NOT flipped;
4. `np.frombuffer(data).reshape(-1, 4)` raises when `len(data) % 4 ≠ 0`; the
   exception is caught by the `except` at line 125 and the iteration aborts —
   again without flipping;
5. otherwise the bounds-filtered records are scatter-written into the write
   page and `buffer.page = write_page` flips. -/
def processFrame (data : List Nat) (s : VoxelState) : VoxelState :=
  let write_page := 1 - s.page
  let cleared := clearPage s.buffers write_page
  if data.length / 4 = 0 then
    { buffers := cleared, page := s.page }
  else if data.length % 4 ≠ 0 then
    { buffers := cleared, page := s.page }
  else
    { buffers := writeRecords write_page (validRecords data) cleared,
      page := write_page }

/-- An all-zero shared buffer with the page byte at 0. -/
def initState : VoxelState :=
  { buffers := fun _ => 0, page := 0 }

/-- Model of `frame_queue.append(x)` where `frame_queue = deque(maxlen=1)`:
append `x` on the right, then drop from the left down to the length bound 1.
Never blocks (it is a total function of the queue state). -/
def queueAppend {α : Type} (q : List α) (x : α) : List α :=
  let q2 := q ++ [x]
  q2.drop (q2.length - 1)

/-- Model of `frame_queue.popleft()` guarded by `if frame_queue:`: return the
leftmost element and the remaining queue, or `none` when empty. -/
def queuePopleft {α : Type} : List α → Option (α × List α)
  | [] => none
  | x :: rest => some (x, rest)

/-- Why a connection handler left its protocol loop: `protocolError` for the
`break` on a bad signature or an over-size length, `eof` for the
`asyncio.IncompleteReadError` raised by a short `readexactly` (clean close or
short read mid-frame).  In every case the `finally` block closes the
connection. -/
inductive ConnEnd
  | protocolError
  | eof
deriving DecidableEq, Repr

/-- Big-endian 32-bit decode, the `struct.unpack` of `header[4:]` with the
network-order unsigned-int format. -/
def be32 : List Nat → Nat
  | [a, b, c, d] => ((a * 256 + b) * 256 + c) * 256 + d
  | _ => 0

/-- Big-endian 32-bit encode of `n < 2^32`, the producer side of the length
field. -/
def be32enc (n : Nat) : List Nat :=
  [n / 16777216 % 256, n / 65536 % 256, n / 256 % 256, n % 256]

/-- A well-formed wire frame carrying the compressed payload `p`: signature
`FF FF FF FF`, big-endian length, then the payload bytes. -/
def encodeFrame (p : List Nat) : List Nat :=
  [255, 255, 255, 255] ++ be32enc p.length ++ p

/-- The `MAX_FRAME` cap of `handle_client`: `packet_length > 10_000_000`
breaks the connection. -/
def maxFrame : Nat := 10000000

/-- The protocol loop of `handle_client` (`update/pointvision_update.py`
lines 144-191) on the byte stream `s` of one connection, with gzip
decompression modelled by the oracle `dec` (`none` = `gzip` raised; the frame
is discarded and the loop continues).  Returns the payloads offered to the
frame queue, in order, and how the loop ended:
1. `readexactly(8)`; a short stream ends the connection (`eof`);
2. signature check on bytes 0-3; mismatch breaks (`protocolError`);
3. parse the big-endian length `L`; `L > 10_000_000` breaks
   (`protocolError`) — before any payload byte is read;
4. `readexactly(L)`; a short read mid-frame ends the connection (`eof`);
5. decompress; failure discards the frame and continues, success appends the
   decompressed payload to the queue. -/
def handleClient (dec : List Nat → Option (List Nat)) (s : List Nat) :
    List (List Nat) × ConnEnd :=
  if _h8 : 8 ≤ s.length then
    if (s.take 8).take 4 = [255, 255, 255, 255] then
      if be32 ((s.take 8).drop 4) ≤ maxFrame then
        if be32 ((s.take 8).drop 4) ≤ (s.drop 8).length then
          match dec ((s.drop 8).take (be32 ((s.take 8).drop 4))) with
          | none => handleClient dec ((s.drop 8).drop (be32 ((s.take 8).drop 4)))
          | some d =>
            (d :: (handleClient dec ((s.drop 8).drop (be32 ((s.take 8).drop 4)))).1,
             (handleClient dec ((s.drop 8).drop (be32 ((s.take 8).drop 4)))).2)
        else ([], ConnEnd.eof)
      else ([], ConnEnd.protocolError)
    else ([], ConnEnd.protocolError)
  else ([], ConnEnd.eof)
termination_by s.length
decreasing_by
  all_goals simp [List.length_drop]; omega

/-- The server maps each connection stream to its own independent handler run
(`asyncio.start_server(handle_client, ...)`: one task per connection, sharing
only the frame queue). -/
def serveAll (dec : List Nat → Option (List Nat)) (streams : List (List Nat)) :
    List (List (List Nat) × ConnEnd) :=
  streams.map (handleClient dec)

/-- Size in bytes of the ctypes structure `voxel_double_buffer_t`:
`2 * voxels_count` buffer bytes, then `page` (1), `bpc` (1), `flags` (2),
`rpm` (2), `uspf` (2); the layout needs no padding, so
`ctypes.sizeof = 2 * voxels_count + 8`. -/
def sizeofVoxelDoubleBuffer : Nat := 2 * voxels_count + 8

/-- Outcome of `os.open("/dev/shm/vortex_double_buffer", os.O_RDWR)` at
startup of the processing thread: the region is absent, or it exists with a
given size in bytes. -/
inductive ShmOpenResult
  | notFound
  | opened (size : Nat)
deriving DecidableEq, Repr

/-- What the processing thread does after its startup sequence. -/
inductive ThreadOutcome
  | loggedErrorAndReturned
  | entersLoop
deriving DecidableEq, Repr

/-- Startup control flow of `process_data` (`update/pointvision_update.py`
lines 37-52 with the handlers at lines 130-136): a missing region raises
`FileNotFoundError`, which is caught, printed and the thread function
returns; `mmap.mmap(fd, ctypes.sizeof(...))` over a smaller region raises
`ValueError`, caught by the generic `except Exception` handler at line 133,
printed, and the thread function returns.  Only a region of at least the
expected size lets the thread enter its processing loop. -/
def processDataStartup : ShmOpenResult → ThreadOutcome
  | ShmOpenResult.notFound => ThreadOutcome.loggedErrorAndReturned
  | ShmOpenResult.opened size =>
      if size < sizeofVoxelDoubleBuffer then ThreadOutcome.loggedErrorAndReturned
      else ThreadOutcome.entersLoop

/-- Whether the server keeps serving connections after the processing thread
reaches the given outcome.  In `main()` (lines 193-216) the thread is started
with `daemon=True` and never joined or inspected; `await
server.serve_forever()` runs regardless, so the answer is `true` for every
thread outcome. -/
def serverServesAfterThread : ThreadOutcome → Bool :=
  fun _ => true

/-- Process exit code as a function of the processing-thread outcome.  In
`__main__` (lines 218-236) `asyncio.run(main())` is wrapped in handlers for
`KeyboardInterrupt` and `Exception` that print and fall off the end of the
script; no code path calls `sys.exit`, and a thread failure never terminates
the process (which keeps serving), so no exit caused by the thread outcome
exists (`none`). -/
def exitCodeAfterThread : ThreadOutcome → Option Nat :=
  fun _ => none

/-- A concrete decompression oracle used by witnesses: payload `[9]` is a bad
gzip stream, payload `[1]` decompresses to the single point record
`[0, 0, 0, 170]`, everything else is bad. -/
def sampleDec : List Nat → Option (List Nat) :=
  fun p => if p = [9] then none else if p = [1] then some [0, 0, 0, 170] else none

theorem queueAppend_eq {α : Type} (q : List α) (x : α) : queueAppend q x = [x] := by
  unfold queueAppend
  simp

theorem validPoint_iff (r : PointRec) :
    validPoint r = true ↔ r.x < 128 ∧ r.y < 128 ∧ r.z < 64 := by
  simp [validPoint, voxels_x, voxels_y, voxels_z, and_assoc]

theorem flatIndex_range (wp : Nat) (r : PointRec) (h : validPoint r = true) :
    wp * voxels_count ≤ flatIndex wp r.y r.x r.z ∧
      flatIndex wp r.y r.x r.z < (wp + 1) * voxels_count := by
  rw [validPoint_iff] at h
  unfold flatIndex voxels_count voxels_x voxels_y voxels_z at *
  omega

theorem writeRecords_nil (wp : Nat) (b : Nat → Nat) : writeRecords wp [] b = b := rfl

theorem writeRecords_cons (wp : Nat) (r : PointRec) (recs : List PointRec) (b : Nat → Nat) :
    writeRecords wp (r :: recs) b =
      writeRecords wp recs (updateByte b (flatIndex wp r.y r.x r.z) r.c) := rfl

theorem writeRecords_eq_of_ne (wp : Nat) (recs : List PointRec) (b : Nat → Nat) (j : Nat)
    (h : ∀ r ∈ recs, flatIndex wp r.y r.x r.z ≠ j) :
    writeRecords wp recs b j = b j := by
  induction recs generalizing b with
  | nil => rfl
  | cons r rs ih =>
    rw [writeRecords_cons, ih (updateByte b (flatIndex wp r.y r.x r.z) r.c)
      (fun t ht => h t (List.mem_cons_of_mem r ht))]
    unfold updateByte
    rw [if_neg]
    exact fun hj => h r (List.mem_cons_self r rs) hj.symm

theorem writeRecords_changed (wp : Nat) (recs : List PointRec) (b : Nat → Nat) (j : Nat)
    (h : writeRecords wp recs b j ≠ b j) :
    ∃ r ∈ recs, flatIndex wp r.y r.x r.z = j := by
  by_contra hc
  push_neg at hc
  exact h (writeRecords_eq_of_ne wp recs b j hc)

theorem processFrame_skip (data : List Nat) (s : VoxelState)
    (h : data.length / 4 = 0) :
    processFrame data s =
      { buffers := clearPage s.buffers (1 - s.page), page := s.page } := by
  simp [processFrame, h]

theorem processFrame_abort (data : List Nat) (s : VoxelState)
    (h1 : data.length / 4 ≠ 0) (h2 : data.length % 4 ≠ 0) :
    processFrame data s =
      { buffers := clearPage s.buffers (1 - s.page), page := s.page } := by
  simp [processFrame, h1, h2]

theorem processFrame_complete (data : List Nat) (s : VoxelState)
    (h1 : data.length / 4 ≠ 0) (h2 : data.length % 4 = 0) :
    processFrame data s =
      { buffers := writeRecords (1 - s.page) (validRecords data)
          (clearPage s.buffers (1 - s.page)),
        page := 1 - s.page } := by
  simp [processFrame, h1, h2]

theorem pointRecords_length : ∀ data : List Nat,
    data.length % 4 = 0 → (pointRecords data).length = data.length / 4
  | [], _ => rfl
  | [_], h => by simp at h
  | [_, _], h => by simp at h
  | [_, _, _], h => by simp at h
  | x :: y :: z :: c :: rest, h => by
      have hr : rest.length % 4 = 0 := by simp at h; omega
      have ih := pointRecords_length rest hr
      simp only [pointRecords, List.length_cons, ih]
      omega

theorem be32_be32enc (n : Nat) (h : n < 4294967296) : be32 (be32enc n) = n := by
  simp only [be32enc, be32]
  omega

theorem handleClient_frame (dec : List Nat → Option (List Nat)) (p rest : List Nat)
    (hMax : p.length ≤ maxFrame) :
    handleClient dec (encodeFrame p ++ rest) =
      match dec p with
      | none => handleClient dec rest
      | some d => (d :: (handleClient dec rest).1, (handleClient dec rest).2) := by
  have h32 : p.length < 4294967296 := by
    have hm : maxFrame = 10000000 := rfl
    omega
  have hhd : ([255, 255, 255, 255] ++ be32enc p.length : List Nat).length = 8 := by
    simp [be32enc]
  have hs : encodeFrame p ++ rest =
      ([255, 255, 255, 255] ++ be32enc p.length) ++ (p ++ rest) := by
    simp [encodeFrame]
  have hslen : 8 ≤ (([255, 255, 255, 255] ++ be32enc p.length) ++ (p ++ rest)).length := by
    simp [be32enc]
  have htake8 : (([255, 255, 255, 255] ++ be32enc p.length) ++ (p ++ rest)).take 8 =
      [255, 255, 255, 255] ++ be32enc p.length := List.take_left' hhd
  have hdrop8 : (([255, 255, 255, 255] ++ be32enc p.length) ++ (p ++ rest)).drop 8 =
      p ++ rest := List.drop_left' hhd
  have htake4 : ([255, 255, 255, 255] ++ be32enc p.length : List Nat).take 4 =
      [255, 255, 255, 255] := List.take_left' (by simp)
  have hdrop4 : ([255, 255, 255, 255] ++ be32enc p.length : List Nat).drop 4 =
      be32enc p.length := List.drop_left' (by simp)
  have hbe : be32 (be32enc p.length) = p.length := be32_be32enc p.length h32
  have hplen : p.length ≤ (p ++ rest).length := by simp
  rw [hs]
  rw [handleClient]
  rw [dif_pos hslen]
  rw [htake8, hdrop8, htake4, hdrop4, hbe]
  rw [if_pos rfl, if_pos hMax, if_pos hplen]
  rw [List.take_left, List.drop_left]

theorem handleClient_badSig (dec : List Nat → Option (List Nat)) (hdr rest : List Nat)
    (hlen : hdr.length = 8) (hsig : hdr.take 4 ≠ [255, 255, 255, 255]) :
    handleClient dec (hdr ++ rest) = ([], ConnEnd.protocolError) := by
  have h8 : 8 ≤ (hdr ++ rest).length := by simp [hlen]
  rw [handleClient, dif_pos h8, List.take_left' hlen, if_neg hsig]

theorem handleClient_oversize (dec : List Nat → Option (List Nat)) (L : Nat) (rest : List Nat)
    (hbig : maxFrame < L) (h32 : L < 4294967296) :
    handleClient dec (([255, 255, 255, 255] ++ be32enc L) ++ rest) =
      ([], ConnEnd.protocolError) := by
  have hhd : ([255, 255, 255, 255] ++ be32enc L : List Nat).length = 8 := by simp [be32enc]
  have h8 : 8 ≤ (([255, 255, 255, 255] ++ be32enc L) ++ rest).length := by simp [be32enc]
  have htake4 : ([255, 255, 255, 255] ++ be32enc L : List Nat).take 4 =
      [255, 255, 255, 255] := List.take_left' rfl
  have hdrop4 : ([255, 255, 255, 255] ++ be32enc L : List Nat).drop 4 =
      be32enc L := List.drop_left' rfl
  rw [handleClient, dif_pos h8, List.take_left' hhd, htake4, if_pos rfl, hdrop4,
      be32_be32enc L h32, if_neg (by omega)]

theorem handleClient_shortRead (dec : List Nat → Option (List Nat)) (L : Nat) (rest : List Nat)
    (hok : L ≤ maxFrame) (hshort : rest.length < L) :
    handleClient dec (([255, 255, 255, 255] ++ be32enc L) ++ rest) =
      ([], ConnEnd.eof) := by
  have h32 : L < 4294967296 := by
    have hm : maxFrame = 10000000 := rfl
    omega
  have hhd : ([255, 255, 255, 255] ++ be32enc L : List Nat).length = 8 := by simp [be32enc]
  have h8 : 8 ≤ (([255, 255, 255, 255] ++ be32enc L) ++ rest).length := by simp [be32enc]
  have htake4 : ([255, 255, 255, 255] ++ be32enc L : List Nat).take 4 =
      [255, 255, 255, 255] := List.take_left' rfl
  have hdrop4 : ([255, 255, 255, 255] ++ be32enc L : List Nat).drop 4 =
      be32enc L := List.drop_left' rfl
  have hdrop8 : (([255, 255, 255, 255] ++ be32enc L) ++ rest).drop 8 = rest :=
    List.drop_left' hhd
  rw [handleClient, dif_pos h8, List.take_left' hhd, htake4, if_pos rfl, hdrop4,
      be32_be32enc L h32, if_pos hok, hdrop8, if_neg (by omega)]

/-- Claim C1: for a payload consisting of exactly one 4-byte record
`(x, y, z, c)` with `x < 128`, `y < 128`, `z < 64`, after the Rasterizer
processes it the byte at flat index `page * N + (y * 128 + x) * 64 + z` of the
newly flipped page equals `c`, every other byte of that page is `0`, and the
page byte equals the index of that page. -/
theorem C1_single_point_identity (x y z c : Nat) (s : VoxelState)
    (hx : x < 128) (hy : y < 128) (hz : z < 64) (_hp : s.page ≤ 1) :
    (processFrame [x, y, z, c] s).page = 1 - s.page ∧
    (processFrame [x, y, z, c] s).buffers (flatIndex (1 - s.page) y x z) = c ∧
    (∀ j, (1 - s.page) * voxels_count ≤ j → j < (1 - s.page + 1) * voxels_count →
      j ≠ flatIndex (1 - s.page) y x z → (processFrame [x, y, z, c] s).buffers j = 0) := by
  have hv : validPoint ⟨x, y, z, c⟩ = true := (validPoint_iff _).mpr ⟨hx, hy, hz⟩
  have hvr : validRecords [x, y, z, c] = [⟨x, y, z, c⟩] := by
    simp [validRecords, pointRecords, hv]
  rw [processFrame_complete [x, y, z, c] s (by simp) (by simp), hvr]
  refine ⟨rfl, ?_, ?_⟩
  · simp [writeRecords, updateByte]
  · intro j hj1 hj2 hne
    simp only [writeRecords, List.foldl_cons, List.foldl_nil, updateByte]
    rw [if_neg hne]
    simp only [clearPage]
    rw [if_pos ⟨hj1, hj2⟩]

/-- Witness for C1 at the concrete scenario of the spec: single point
`(64, 64, 32, 255)` rasterized from the all-zero state with page byte 0. -/
theorem C1_witness :
    (processFrame [64, 64, 32, 255] initState).page = 1 - initState.page ∧
    (processFrame [64, 64, 32, 255] initState).buffers
      (flatIndex (1 - initState.page) 64 64 32) = 255 ∧
    (∀ j, (1 - initState.page) * voxels_count ≤ j →
      j < (1 - initState.page + 1) * voxels_count →
      j ≠ flatIndex (1 - initState.page) 64 64 32 →
      (processFrame [64, 64, 32, 255] initState).buffers j = 0) :=
  C1_single_point_identity 64 64 32 255 initState (by decide) (by decide) (by decide)
    (by decide)

theorem processFrame_outside (data : List Nat) (s : VoxelState) (j : Nat)
    (hj : ¬((1 - s.page) * voxels_count ≤ j ∧ j < (1 - s.page + 1) * voxels_count)) :
    (processFrame data s).buffers j = s.buffers j := by
  have hcl : clearPage s.buffers (1 - s.page) j = s.buffers j := by
    simp only [clearPage]
    rw [if_neg hj]
  by_cases h1 : data.length / 4 = 0
  · rw [processFrame_skip data s h1]
    exact hcl
  · by_cases h2 : data.length % 4 = 0
    · rw [processFrame_complete data s h1 h2]
      show writeRecords (1 - s.page) (validRecords data)
        (clearPage s.buffers (1 - s.page)) j = s.buffers j
      rw [writeRecords_eq_of_ne]
      · exact hcl
      · intro r hr heq
        have hrange := flatIndex_range (1 - s.page) r (List.mem_filter.mp hr).2
        exact hj (heq ▸ hrange)
    · rw [processFrame_abort data s h1 h2]
      exact hcl

/-- Claim C2: assuming the page byte starts in `{0, 1}`, every buffer byte the
Rasterizer changes while processing a frame lies in the page that is the
complement of the page byte it read at the start of the frame, and no byte of
the page named by that read is written during the frame. -/
theorem C2_ownership_safety (data : List Nat) (s : VoxelState) (hp : s.page ≤ 1) :
    (∀ j, (processFrame data s).buffers j ≠ s.buffers j →
      (1 - s.page) * voxels_count ≤ j ∧ j < (1 - s.page + 1) * voxels_count) ∧
    (∀ j, s.page * voxels_count ≤ j → j < (s.page + 1) * voxels_count →
      (processFrame data s).buffers j = s.buffers j) := by
  constructor
  · intro j hne
    by_contra hj
    exact hne (processFrame_outside data s j hj)
  · intro j hj1 hj2
    apply processFrame_outside
    intro hcontra
    rcases Nat.le_one_iff_eq_zero_or_eq_one.mp hp with h | h <;>
      rw [h] at hj1 hj2 hcontra <;> simp at hj1 hj2 hcontra <;> omega

/-- Witness for C2: a frame processed from the all-zero page-0 state leaves
byte 0 of page 0 untouched. -/
theorem C2_witness :
    (processFrame [1, 2, 3, 4] initState).buffers 0 = initState.buffers 0 :=
  (C2_ownership_safety [1, 2, 3, 4] initState (by decide)).2 0 (by decide) (by decide)

/-- Claim C3: the frame slot `frame_queue = deque(maxlen=1)` never blocks on
append, holds at most one payload, an append into a full slot replaces the
older payload, and after any sequence of appends ending with `x` the next
popleft returns exactly `x` leaving the slot empty. -/
theorem C3_frameslot_drop_latest {α : Type} (q ps : List α) (x a b : α) :
    queuePopleft (List.foldl queueAppend q (ps ++ [x])) = some (x, []) ∧
    (List.foldl queueAppend q (ps ++ [x])).length ≤ 1 ∧
    queueAppend [a] b = [b] := by
  have hfold : List.foldl queueAppend q (ps ++ [x]) = [x] := by
    rw [List.foldl_append, List.foldl_cons, List.foldl_nil, queueAppend_eq]
  rw [hfold]
  exact ⟨rfl, by simp, queueAppend_eq [a] b⟩

/-- Claim C4: the page byte is flipped only when a frame has been fully
rasterized — whenever `processFrame` changes the page byte, the resulting
buffer is the complete scatter write of every surviving record over the
cleared idle page — and a payload whose length is not a multiple of 4 aborts
the frame with the page byte unchanged. -/
theorem C4_flip_only_after_complete (data : List Nat) (s : VoxelState) :
    ((processFrame data s).page ≠ s.page →
      (processFrame data s).page = 1 - s.page ∧
      (processFrame data s).buffers =
        writeRecords (1 - s.page) (validRecords data)
          (clearPage s.buffers (1 - s.page))) ∧
    (data.length % 4 ≠ 0 → (processFrame data s).page = s.page) := by
  by_cases h1 : data.length / 4 = 0
  · rw [processFrame_skip data s h1]
    exact ⟨fun hne => absurd rfl hne, fun _ => rfl⟩
  · by_cases h2 : data.length % 4 = 0
    · rw [processFrame_complete data s h1 h2]
      exact ⟨fun _ => ⟨rfl, rfl⟩, fun hmod => absurd h2 hmod⟩
    · rw [processFrame_abort data s h1 h2]
      exact ⟨fun hne => absurd rfl hne, fun _ => rfl⟩

/-- Witness for C4: a 7-byte payload (one whole record plus a trailing
fragment) aborts rasterization and the page byte keeps its previous value. -/
theorem C4_witness :
    (processFrame [1, 2, 3, 4, 5, 6, 7] initState).page = initState.page :=
  (C4_flip_only_after_complete [1, 2, 3, 4, 5, 6, 7] initState).2 (by decide)

/-- Claim C5: a voxel byte is written for a record only if its coordinates
satisfy `x < 128`, `y < 128`, `z < 64` — every buffer byte differing from the
cleared idle page comes from a record passing the bounds check — and the
number of dropped records is counted: surviving plus counted-invalid records
sum to all parsed records. -/
theorem C5_coordinate_safety (data : List Nat) (s : VoxelState) :
    (∀ j, (processFrame data s).buffers j ≠ clearPage s.buffers (1 - s.page) j →
      ∃ r ∈ pointRecords data, validPoint r = true ∧
        j = flatIndex (1 - s.page) r.y r.x r.z) ∧
    (validRecords data).length + invalidCount data = (pointRecords data).length := by
  constructor
  · intro j hj
    by_cases h1 : data.length / 4 = 0
    · rw [processFrame_skip data s h1] at hj
      exact absurd rfl hj
    · by_cases h2 : data.length % 4 = 0
      · rw [processFrame_complete data s h1 h2] at hj
        obtain ⟨r, hr, heq⟩ := writeRecords_changed _ _ _ _ hj
        have hm := List.mem_filter.mp hr
        exact ⟨r, hm.1, hm.2, heq.symm⟩
      · rw [processFrame_abort data s h1 h2] at hj
        exact absurd rfl hj
  · unfold validRecords invalidCount
    exact (List.length_eq_length_filter_add validPoint).symm

/-- Witness for C5 at the out-of-bounds scenario of the spec: payload
`[200, 0, 0, 170, 0, 0, 0, 85]`; the byte changed at flat index 1048576 of
page 1 comes from the surviving in-bounds record `(0, 0, 0, 85)`. -/
theorem C5_witness :
    ∃ r ∈ pointRecords [200, 0, 0, 170, 0, 0, 0, 85],
      validPoint r = true ∧ 1048576 = flatIndex (1 - initState.page) r.y r.x r.z :=
  (C5_coordinate_safety [200, 0, 0, 170, 0, 0, 0, 85] initState).1 1048576 (by decide)

/-- Claim C6: a frame whose payload fails gzip decompression is discarded and
the protocol loop continues on the same connection; a subsequent well-formed
frame on that connection is processed normally (its decompressed payload is
the next one offered to the frame queue). -/
theorem C6_bad_gzip_discards_only_frame (dec : List Nat → Option (List Nat))
    (bad good rest dg : List Nat)
    (hb : bad.length ≤ maxFrame) (hg : good.length ≤ maxFrame)
    (hdb : dec bad = none) (hdg : dec good = some dg) :
    handleClient dec (encodeFrame bad ++ (encodeFrame good ++ rest)) =
      (dg :: (handleClient dec rest).1, (handleClient dec rest).2) := by
  rw [handleClient_frame dec bad (encodeFrame good ++ rest) hb]
  simp only [hdb]
  rw [handleClient_frame dec good rest hg]
  simp only [hdg]

/-- Witness for C6: with `sampleDec`, the bad frame over payload `[9]` is
skipped and the following good frame over payload `[1]` is delivered. -/
theorem C6_witness :
    handleClient sampleDec (encodeFrame [9] ++ (encodeFrame [1] ++ [])) =
      ([0, 0, 0, 170] :: (handleClient sampleDec []).1,
       (handleClient sampleDec []).2) :=
  C6_bad_gzip_discards_only_frame sampleDec [9] [1] [] [0, 0, 0, 170]
    (by decide) (by decide) (by decide) (by decide)

/-- Claim C7: each of the three protocol errors — header signature different
from `FF FF FF FF`, length field above `MAX_FRAME = 10_000_000` (checked
before any payload byte is read: the conclusion holds for every remainder of
the stream), and a short read mid-frame — makes the handler leave its loop,
closing that connection; and only that connection: the result of every other
connection of the server is unchanged. -/
theorem C7_protocol_errors_close_connection (dec : List Nat → Option (List Nat)) :
    (∀ hdr rest : List Nat, hdr.length = 8 → hdr.take 4 ≠ [255, 255, 255, 255] →
      handleClient dec (hdr ++ rest) = ([], ConnEnd.protocolError)) ∧
    (∀ (L : Nat) (rest : List Nat), maxFrame < L → L < 4294967296 →
      handleClient dec ([255, 255, 255, 255] ++ be32enc L ++ rest) =
        ([], ConnEnd.protocolError)) ∧
    (∀ (L : Nat) (rest : List Nat), L ≤ maxFrame → rest.length < L →
      handleClient dec ([255, 255, 255, 255] ++ be32enc L ++ rest) =
        ([], ConnEnd.eof)) ∧
    (∀ (streams : List (List Nat)) (i j : Nat) (s2 : List Nat), i ≠ j →
      (serveAll dec (streams.set i s2))[j]? = (serveAll dec streams)[j]?) := by
  refine ⟨?_, ?_, ?_, ?_⟩
  · intro hdr rest hlen hsig
    exact handleClient_badSig dec hdr rest hlen hsig
  · intro L rest hbig h32
    exact handleClient_oversize dec L rest hbig h32
  · intro L rest hok hshort
    exact handleClient_shortRead dec L rest hok hshort
  · intro streams i j s2 hij
    simp only [serveAll, List.getElem?_map, List.getElem?_set_ne hij]

/-- Witness for C7: a header whose fourth signature byte is `254` closes the
connection with a protocol error. -/
theorem C7_witness :
    handleClient sampleDec ([255, 255, 255, 254, 0, 0, 0, 0] ++ []) =
      ([], ConnEnd.protocolError) :=
  (C7_protocol_errors_close_connection sampleDec).1
    [255, 255, 255, 254, 0, 0, 0, 0] [] (by decide) (by decide)

/-- Counterexample to claim C8: the claim says that on an empty decompressed
payload the Rasterizer clears the idle page AND flips the page byte to it.
In `process_data` (`update/pointvision_update.py` line 83) `num_points == 0`
hits `continue` before `buffer.page = write_page`, so from the all-zero state
with page byte 0 the page byte stays 0 instead of becoming 1. -/
theorem C8_counterexample :
    (processFrame [] initState).page ≠ 1 - initState.page := by
  rw [processFrame_skip [] initState rfl]
  decide

/-- Claim C8 as amended: for a frame with a valid header and length field
`L = 0` the handler reads an empty compressed payload, and whatever the
decompressor yields for it is offered to the frame queue; on taking an empty
decompressed payload the Rasterizer clears the idle page to all zeros but
does NOT flip — the page byte keeps its previous value, so the all-off page
is never displayed. -/
theorem C8_empty_frame_clears_without_flip (s : VoxelState)
    (dec : List Nat → Option (List Nat)) (d rest : List Nat)
    (hdec : dec [] = some d) :
    handleClient dec (encodeFrame [] ++ rest) =
      (d :: (handleClient dec rest).1, (handleClient dec rest).2) ∧
    (processFrame [] s).page = s.page ∧
    (∀ j, (1 - s.page) * voxels_count ≤ j → j < (1 - s.page + 1) * voxels_count →
      (processFrame [] s).buffers j = 0) := by
  refine ⟨?_, ?_, ?_⟩
  · rw [handleClient_frame dec [] rest (by decide)]
    simp only [hdec]
  · rw [processFrame_skip [] s rfl]
  · intro j h1 h2
    rw [processFrame_skip [] s rfl]
    show clearPage s.buffers (1 - s.page) j = 0
    simp only [clearPage]
    rw [if_pos ⟨h1, h2⟩]

/-- Witness for the amended C8 with a decompressor that yields the empty
payload on the empty compressed payload. -/
theorem C8_witness :
    handleClient (fun _ => some ([] : List Nat)) (encodeFrame [] ++ []) =
      (([] : List Nat) :: (handleClient (fun _ => some ([] : List Nat)) []).1,
       (handleClient (fun _ => some ([] : List Nat)) []).2) ∧
    (processFrame [] initState).page = initState.page ∧
    (∀ j, (1 - initState.page) * voxels_count ≤ j →
      j < (1 - initState.page + 1) * voxels_count →
      (processFrame [] initState).buffers j = 0) :=
  C8_empty_frame_clears_without_flip initState (fun _ => some ([] : List Nat)) [] []
    (by decide)

/-- Counterexample to claim C9: the claim says that with the shared region
missing the process exits with a non-zero exit code rather than continuing to
serve connections.  In the code the `FileNotFoundError` is caught and printed
inside the daemon processing thread (lines 130-132), which simply returns;
`main()` never inspects the thread, keeps serving, and no code path produces
a non-zero exit. -/
theorem C9_counterexample :
    (¬ ∃ code : Nat,
      exitCodeAfterThread (processDataStartup ShmOpenResult.notFound) = some code ∧
      code ≠ 0) ∧
    serverServesAfterThread (processDataStartup ShmOpenResult.notFound) = true := by
  constructor
  · rintro ⟨code, hc, _⟩
    simp [exitCodeAfterThread] at hc
  · rfl

/-- Claim C9 as amended: if the shared region is missing, or the opened
region is smaller than the expected layout, the processing thread logs a
critical error and terminates — but the process does not exit: no exit code
is produced and the daemon-threaded server continues to serve connections. -/
theorem C9_startup_failure_logged_not_fatal :
    processDataStartup ShmOpenResult.notFound = ThreadOutcome.loggedErrorAndReturned ∧
    (∀ sz : Nat, sz < sizeofVoxelDoubleBuffer →
      processDataStartup (ShmOpenResult.opened sz) =
        ThreadOutcome.loggedErrorAndReturned) ∧
    (∀ o : ShmOpenResult, exitCodeAfterThread (processDataStartup o) = none ∧
      serverServesAfterThread (processDataStartup o) = true) := by
  refine ⟨rfl, ?_, ?_⟩
  · intro sz hsz
    simp [processDataStartup, hsz]
  · intro o
    exact ⟨rfl, rfl⟩

/-- Witness for the amended C9 at region size 0 (smaller than the layout). -/
theorem C9_witness :
    processDataStartup (ShmOpenResult.opened 0) =
      ThreadOutcome.loggedErrorAndReturned :=
  C9_startup_failure_logged_not_fatal.2.1 0 (by decide)

/-- Claim C10: the `MAX_FRAME` cap applies only to the compressed wire
length: whatever payload `d` the decompressor yields for an accepted frame is
offered in full to the frame queue (no check on the size of `d`), and the
Rasterizer processes every 4-byte record of any payload whose length is a
nonzero multiple of 4 — the result is the full scatter write of all surviving
records and the record count is exactly `length / 4`, with no truncation at
any size. -/
theorem C10_no_limit_on_decompressed_size (dec : List Nat → Option (List Nat))
    (p d rest data : List Nat) (s : VoxelState) :
    (p.length ≤ maxFrame → dec p = some d →
      handleClient dec (encodeFrame p ++ rest) =
        (d :: (handleClient dec rest).1, (handleClient dec rest).2)) ∧
    (data.length % 4 = 0 → data.length ≠ 0 →
      processFrame data s =
        { buffers := writeRecords (1 - s.page) (validRecords data)
            (clearPage s.buffers (1 - s.page)),
          page := 1 - s.page } ∧
      (pointRecords data).length = data.length / 4) := by
  constructor
  · intro hp hdec
    rw [handleClient_frame dec p rest hp]
    simp only [hdec]
  · intro hmod hne
    have h1 : data.length / 4 ≠ 0 := by omega
    exact ⟨processFrame_complete data s h1 hmod, pointRecords_length data hmod⟩

/-- Witness for C10 on a two-record payload. -/
theorem C10_witness :
    processFrame [1, 2, 3, 4, 5, 6, 7, 8] initState =
      { buffers := writeRecords (1 - initState.page)
          (validRecords [1, 2, 3, 4, 5, 6, 7, 8])
          (clearPage initState.buffers (1 - initState.page)),
        page := 1 - initState.page } ∧
    (pointRecords [1, 2, 3, 4, 5, 6, 7, 8]).length =
      [1, 2, 3, 4, 5, 6, 7, 8].length / 4 :=
  (C10_no_limit_on_decompressed_size sampleDec [] [] [] [1, 2, 3, 4, 5, 6, 7, 8]
    initState).2 (by decide) (by decide)
